import Mathlib

/-!
Verification of the `createFileMap` utility of the blog repository.

`createFileMap` converts the children of a `<SandpackEditor>` MDX element
(markdown code blocks rendered as `pre` wrappers) into a record mapping
file paths to sandbox file descriptors `{code, hidden, active}`.

The embedding below follows the TypeScript source line by line:

  createFileMap(children):
    codeSnippets = React.Children.toArray(children)
    reduce over codeSnippets, starting from the empty object:
      skip any snippet whose props.mdxType is not "pre";
      props := codeSnippet.props.children.props;
      if props.metastring is truthy:
        [name, ...params] = props.metastring.split(" ")
        filePath = "/" + name;
        fileHidden  = params.includes("hidden")
        fileActive  = params.includes("active")
      else branch on props.className:
        "language-js" -> "/App.js", "language-ts" -> "/App.tsx",
        "language-tsx" -> "/App.tsx", "language-css" -> "/styles.css",
        otherwise throw (missing filename);
      if result[filePath] already exists, throw (duplicate path);
      result[filePath] = { code: props.children, hidden, active }.

JavaScript `split(" ")` splits on the literal space character keeping
empty segments; object key insertion preserves order, so the record is
modelled as an insertion-ordered association list; the two `throw`
statements become an `Except` error type with two constructors.
-/

namespace Blog

/-- A virtual file handed to the sandbox renderer (`SandpackFile` in the
source): the raw code text plus the `hidden` and `active` display flags. -/
structure SandpackFile where
  code : String
  hidden : Bool
  active : Bool
  deriving DecidableEq

/-- Props of the nested code element inside a `pre` wrapper: the
`className` language tag (for example `language-tsx`), the optional
`metastring` following the code fence, and `children`, the raw source
text of the block. -/
structure CodeProps where
  className : Option String
  metastring : Option String
  children : String
  deriving DecidableEq

/-- The nested code element, `codeSnippet.props.children` in the source. -/
structure CodeElement where
  props : CodeProps
  deriving DecidableEq

/-- Props of a top-level child node: its `mdxType` tag and the nested code
element. -/
structure PreProps where
  mdxType : String
  children : CodeElement
  deriving DecidableEq

/-- A child node as seen by `createFileMap`. -/
structure ReactElement where
  props : PreProps
  deriving DecidableEq

/-- The record built by the reducer: a JavaScript object from file path to
file descriptor, modelled as an insertion-ordered association list. -/
abbrev FileMap := List (String × SandpackFile)

/-- The two throw sites of `createFileMap`: the missing-filename error
carries the code text interpolated into its message, the duplicate-path
error carries the offending path. -/
inductive FileMapError where
  | missingFilename (blockChildren : String)
  | duplicatePath (path : String)
  deriving DecidableEq

/-- JavaScript `split` with a single-character separator, acting on the
character list: split at every occurrence of the separator, keeping empty
segments, with one (possibly empty) segment even for the empty input. -/
def splitChars (sep : Char) : List Char → List (List Char)
  | [] => [[]]
  | c :: cs =>
    match splitChars sep cs with
    | [] => [[]]
    | t :: ts => if c = sep then [] :: t :: ts else (c :: t) :: ts

/-- JavaScript `s.split(" ")`. -/
def jsSplitSpace (s : String) : List String :=
  (splitChars ' ' s.data).map (fun cs => String.mk cs)

/-- JavaScript truthiness of `props.metastring`: `undefined` and the empty
string are falsy, every other string is truthy. -/
def metastringTruthy : Option String → Bool
  | none => false
  | some s => !(s == "")

/-- The filename-resolution part of the reducer body (source lines
221-248): from the code element's props, compute `filePath`, `fileHidden`
and `fileActive`, or throw the missing-filename error. -/
def resolveFile (props : CodeProps) : Except FileMapError (String × Bool × Bool) :=
  if metastringTruthy props.metastring then
    let parts := jsSplitSpace (props.metastring.getD "")
    let name := parts.headD ""
    let params := parts.tail
    .ok ("/" ++ name, params.contains "hidden", params.contains "active")
  else if props.className = some "language-js" then
    .ok ("/App.js", false, false)
  else if props.className = some "language-ts" then
    .ok ("/App.tsx", false, false)
  else if props.className = some "language-tsx" then
    .ok ("/App.tsx", false, false)
  else if props.className = some "language-css" then
    .ok ("/styles.css", false, false)
  else
    .error (.missingFilename props.children)

/-- One step of the reducer of `createFileMap` (source lines 216-261):
skip non-`pre` children, resolve the path and flags, throw on a duplicate
path, otherwise insert the descriptor at the path. -/
def createFileMapStep (result : FileMap) (codeSnippet : ReactElement) :
    Except FileMapError FileMap :=
  if codeSnippet.props.mdxType ≠ "pre" then
    .ok result
  else
    let props := codeSnippet.props.children.props
    match resolveFile props with
    | .error e => .error e
    | .ok (filePath, fileHidden, fileActive) =>
      if (result.lookup filePath).isSome then
        .error (.duplicatePath filePath)
      else
        .ok (result ++
          [(filePath, { code := props.children, hidden := fileHidden, active := fileActive })])

/-- `createFileMap` (source lines 210-264): fold the reducer over the
flattened children, starting from the empty object; a throw aborts the
fold and surfaces to the caller. -/
def createFileMap (children : List ReactElement) : Except FileMapError FileMap :=
  children.foldlM createFileMapStep []

deriving instance DecidableEq for Except

/-- The props of the code element nested in a child node. -/
def blockProps (c : ReactElement) : CodeProps := c.props.children.props

/-- First token of the metastring under JavaScript `split(" ")`. -/
def metaName (p : CodeProps) : String := (jsSplitSpace (p.metastring.getD "")).headD ""

/-- Remaining tokens of the metastring under JavaScript `split(" ")`. -/
def metaParams (p : CodeProps) : List String := (jsSplitSpace (p.metastring.getD "")).tail

/-- The path a named block resolves to: slash followed by the first
metastring token. -/
def blockPath (c : ReactElement) : String := "/" ++ metaName (blockProps c)

/-- The descriptor a named block resolves to: raw code text verbatim,
flags read off the remaining metastring tokens. -/
def blockFile (c : ReactElement) : SandpackFile :=
  { code := (blockProps c).children
    hidden := (metaParams (blockProps c)).contains "hidden"
    active := (metaParams (blockProps c)).contains "active" }

/-- The map entry a named block contributes. -/
def blockEntry (c : ReactElement) : String × SandpackFile := (blockPath c, blockFile c)

/-- A `pre`-tagged child node with the given className, metastring and raw
code text. -/
def mkBlock (cn ms : Option String) (raw : String) : ReactElement :=
  ⟨⟨"pre", ⟨⟨cn, ms, raw⟩⟩⟩⟩

/-- Tokenization following the specification's wording, which says the
metadata line is split on whitespace: split at every whitespace character
and keep the nonempty tokens. -/
def splitCharsWhite : List Char → List (List Char)
  | [] => [[]]
  | c :: cs =>
    match splitCharsWhite cs with
    | [] => [[]]
    | t :: ts => if c.isWhitespace then [] :: t :: ts else (c :: t) :: ts

/-- Whitespace tokens of a string, per the specification's wording. -/
def whitespaceTokens (s : String) : List String :=
  ((splitCharsWhite s.data).map (fun cs => String.mk cs)).filter (fun t => !(t == ""))

/-- The descriptor the specification's wording predicts for a block with a
present metadata string: the first whitespace token is the file name, the
flags are read among the remaining whitespace tokens. -/
def claimDescriptor (ms raw : String) : String × SandpackFile :=
  let toks := whitespaceTokens ms
  ("/" ++ toks.headD "",
    { code := raw
      hidden := toks.tail.contains "hidden"
      active := toks.tail.contains "active" })

theorem foldlM_step_nil (acc : FileMap) :
    List.foldlM createFileMapStep acc [] = .ok acc := rfl

theorem foldlM_step_cons (acc : FileMap) (c : ReactElement) (cs : List ReactElement) :
    List.foldlM createFileMapStep acc (c :: cs) =
      createFileMapStep acc c >>= fun acc' => List.foldlM createFileMapStep acc' cs := rfl

theorem except_bind_ok (a : FileMap) (f : FileMap → Except FileMapError FileMap) :
    (Except.ok a >>= f) = f a := rfl

theorem except_bind_error (e : FileMapError) (f : FileMap → Except FileMapError FileMap) :
    ((Except.error e : Except FileMapError FileMap) >>= f) = .error e := rfl

theorem lookup_nil (k : String) : (([] : FileMap)).lookup k = none := rfl

theorem lookup_cons (k p : String) (v : SandpackFile) (l : FileMap) :
    (((p, v) :: l) : FileMap).lookup k = if k = p then some v else l.lookup k := by
  by_cases h : k = p
  · subst h
    simp [List.lookup]
  · have hb : (k == p) = false := beq_eq_false_iff_ne.mpr h
    simp [List.lookup, hb, h]

theorem lookup_eq_none_iff (l : FileMap) (k : String) :
    l.lookup k = none ↔ k ∉ l.map Prod.fst := by
  induction l with
  | nil => simp [lookup_nil]
  | cons a l ih =>
    obtain ⟨p, v⟩ := a
    by_cases h : k = p
    · subst h
      simp [lookup_cons]
    · simp [lookup_cons, h, ih]

theorem lookup_append_single_none (l : FileMap) (k p : String) (v : SandpackFile)
    (h : l.lookup k = none) (hne : ¬ k = p) : ((l ++ [(p, v)]) : FileMap).lookup k = none := by
  induction l with
  | nil => simp [lookup_cons, lookup_nil, hne]
  | cons a l ih =>
    obtain ⟨q, w⟩ := a
    by_cases hq : k = q
    · subst hq
      simp [lookup_cons] at h
    · rw [List.cons_append, lookup_cons, if_neg hq]
      rw [lookup_cons, if_neg hq] at h
      exact ih h

theorem createFileMapStep_skip (result : FileMap) (c : ReactElement)
    (h : ¬ c.props.mdxType = "pre") : createFileMapStep result c = .ok result := by
  simp [createFileMapStep, h]

theorem createFileMapStep_pre (result : FileMap) (c : ReactElement)
    (h : c.props.mdxType = "pre") :
    createFileMapStep result c =
      match resolveFile (blockProps c) with
      | .error e => .error e
      | .ok (filePath, fileHidden, fileActive) =>
        if (result.lookup filePath).isSome then
          .error (.duplicatePath filePath)
        else
          .ok (result ++
            [(filePath,
              { code := (blockProps c).children, hidden := fileHidden, active := fileActive })]) := by
  simp [createFileMapStep, h, blockProps]

theorem resolveFile_meta (p : CodeProps) (h : metastringTruthy p.metastring = true) :
    resolveFile p =
      .ok ("/" ++ metaName p,
        (metaParams p).contains "hidden", (metaParams p).contains "active") := by
  simp [resolveFile, h, metaName, metaParams]

theorem resolveFile_absent (p : CodeProps) (h : metastringTruthy p.metastring = false) :
    resolveFile p =
      if p.className = some "language-js" then .ok ("/App.js", false, false)
      else if p.className = some "language-ts" then .ok ("/App.tsx", false, false)
      else if p.className = some "language-tsx" then .ok ("/App.tsx", false, false)
      else if p.className = some "language-css" then .ok ("/styles.css", false, false)
      else .error (.missingFilename p.children) := by
  simp [resolveFile, h]

theorem createFileMapStep_meta (result : FileMap) (c : ReactElement)
    (hpre : c.props.mdxType = "pre")
    (hms : metastringTruthy (blockProps c).metastring = true) :
    createFileMapStep result c =
      if (result.lookup (blockPath c)).isSome then .error (.duplicatePath (blockPath c))
      else .ok (result ++ [blockEntry c]) := by
  rw [createFileMapStep_pre result c hpre, resolveFile_meta _ hms]
  rfl

theorem createFileMap_singleton (c : ReactElement) (hpre : c.props.mdxType = "pre") :
    createFileMap [c] =
      match resolveFile (blockProps c) with
      | .error e => .error e
      | .ok (fp, fh, fa) =>
        .ok [(fp, { code := (blockProps c).children, hidden := fh, active := fa })] := by
  show List.foldlM createFileMapStep [] [c] = _
  rw [foldlM_step_cons, createFileMapStep_pre [] c hpre]
  cases resolveFile (blockProps c) with
  | error e => rfl
  | ok v =>
    obtain ⟨fp, fh, fa⟩ := v
    rfl

theorem foldlM_named_blocks (children : List ReactElement) :
    ∀ acc : FileMap,
      (∀ c ∈ children, c.props.mdxType = "pre") →
      (∀ c ∈ children, metastringTruthy (blockProps c).metastring = true) →
      (children.map blockPath).Nodup →
      (∀ c ∈ children, acc.lookup (blockPath c) = none) →
      List.foldlM createFileMapStep acc children = .ok (acc ++ children.map blockEntry) := by
  induction children with
  | nil =>
    intro acc _ _ _ _
    rw [foldlM_step_nil]
    simp
  | cons c cs ih =>
    intro acc hpre hms hnd hacc
    have hstep : createFileMapStep acc c = .ok (acc ++ [blockEntry c]) := by
      rw [createFileMapStep_meta acc c (hpre c (by simp)) (hms c (by simp))]
      simp [hacc c (by simp)]
    rw [foldlM_step_cons, hstep, except_bind_ok]
    have hnd' : (cs.map blockPath).Nodup := by
      simpa using hnd.of_cons
    have hhead : blockPath c ∉ cs.map blockPath := by
      have := hnd
      simp only [List.map_cons, List.nodup_cons] at this
      exact this.1
    rw [ih (acc ++ [blockEntry c])
      (fun x hx => hpre x (by simp [hx]))
      (fun x hx => hms x (by simp [hx]))
      hnd'
      (fun x hx => by
        refine lookup_append_single_none acc (blockPath x) (blockPath c) (blockFile c)
          (hacc x (by simp [hx])) ?_
        intro hcontra
        exact hhead (hcontra ▸ List.mem_map_of_mem blockPath hx))]
    simp

theorem step_preserves_keys_nodup (acc : FileMap) (c : ReactElement) (acc' : FileMap)
    (h : createFileMapStep acc c = .ok acc') (hn : (acc.map Prod.fst).Nodup) :
    (acc'.map Prod.fst).Nodup := by
  by_cases hpre : c.props.mdxType = "pre"
  · rw [createFileMapStep_pre acc c hpre] at h
    cases hr : resolveFile (blockProps c) with
    | error e =>
      rw [hr] at h
      exact absurd h (by simp)
    | ok v =>
      obtain ⟨fp, fh, fa⟩ := v
      rw [hr] at h
      have h' : (if (acc.lookup fp).isSome = true then
            (Except.error (FileMapError.duplicatePath fp) : Except FileMapError FileMap)
          else .ok (acc ++
            [(fp, { code := (blockProps c).children, hidden := fh, active := fa })])) =
          .ok acc' := h
      clear h
      by_cases hl : (acc.lookup fp).isSome = true
      · rw [if_pos hl] at h'
        exact absurd h' (by simp)
      · rw [if_neg hl] at h'
        replace h := h'
        have hmem : fp ∉ acc.map Prod.fst :=
          (lookup_eq_none_iff acc fp).mp (Option.not_isSome_iff_eq_none.mp hl)
        have hacc : acc' = acc ++
            [(fp, { code := (blockProps c).children, hidden := fh, active := fa })] :=
          (Except.ok.inj h).symm
        subst hacc
        simp [List.nodup_append, hn, hmem]
  · rw [createFileMapStep_skip acc c hpre] at h
    exact (Except.ok.inj h) ▸ hn

theorem foldlM_keys_nodup (children : List ReactElement) :
    ∀ acc : FileMap, (acc.map Prod.fst).Nodup →
      ∀ m, List.foldlM createFileMapStep acc children = .ok m → (m.map Prod.fst).Nodup := by
  induction children with
  | nil =>
    intro acc hn m hm
    rw [foldlM_step_nil] at hm
    exact (Except.ok.inj hm) ▸ hn
  | cons c cs ih =>
    intro acc hn m hm
    rw [foldlM_step_cons] at hm
    cases hs : createFileMapStep acc c with
    | error e =>
      rw [hs, except_bind_error] at hm
      exact absurd hm (by simp)
    | ok acc' =>
      rw [hs, except_bind_ok] at hm
      exact ih acc' (step_preserves_keys_nodup acc c acc' hs hn) m hm

theorem step_from_empty (b : ReactElement) (p : String) (f : SandpackFile)
    (h : createFileMapStep [] b = .ok [(p, f)]) :
    b.props.mdxType = "pre" ∧
      resolveFile (blockProps b) = .ok (p, f.hidden, f.active) ∧
      f.code = (blockProps b).children := by
  by_cases hpre : b.props.mdxType = "pre"
  · rw [createFileMapStep_pre [] b hpre] at h
    cases hr : resolveFile (blockProps b) with
    | error e =>
      rw [hr] at h
      exact absurd h (by simp)
    | ok v =>
      obtain ⟨fp, fh, fa⟩ := v
      rw [hr] at h
      have h' : ([(fp, { code := (blockProps b).children, hidden := fh, active := fa })] :
          FileMap) = [(p, f)] := Except.ok.inj h
      have h3 : (fp, ({ code := (blockProps b).children, hidden := fh, active := fa } :
          SandpackFile)) = (p, f) := (List.cons.inj h').1
      have h4 : fp = p := congrArg Prod.fst h3
      have h5 : ({ code := (blockProps b).children, hidden := fh, active := fa } :
          SandpackFile) = f := congrArg Prod.snd h3
      refine ⟨hpre, ?_, ?_⟩
      · rw [h4, ← h5]
      · rw [← h5]
  · rw [createFileMapStep_skip [] b hpre] at h
    exact absurd h (by simp)

theorem step_duplicate (acc : FileMap) (b : ReactElement) (p : String) (f : SandpackFile)
    (h : createFileMapStep [] b = .ok [(p, f)]) (hp : (acc.lookup p).isSome = true) :
    createFileMapStep acc b = .error (.duplicatePath p) := by
  obtain ⟨hpre, hres, -⟩ := step_from_empty b p f h
  rw [createFileMapStep_pre acc b hpre, hres]
  simp [hp]

theorem foldlM_filter_pre (children : List ReactElement) :
    ∀ acc : FileMap,
      List.foldlM createFileMapStep acc children =
        List.foldlM createFileMapStep acc
          (children.filter (fun c => c.props.mdxType == "pre")) := by
  induction children with
  | nil => intro acc; rfl
  | cons c cs ih =>
    intro acc
    by_cases h : c.props.mdxType = "pre"
    · rw [List.filter_cons_of_pos (by simp [h]), foldlM_step_cons, foldlM_step_cons]
      cases createFileMapStep acc c with
      | error e => rw [except_bind_error, except_bind_error]
      | ok acc' => rw [except_bind_ok, except_bind_ok]; exact ih acc'
    · rw [List.filter_cons_of_neg (by simp [h]), foldlM_step_cons,
        createFileMapStep_skip acc c h, except_bind_ok]
      exact ih acc

theorem mem_iff_contains (l : List String) (a : String) : l.contains a = true ↔ a ∈ l :=
  List.elem_iff

theorem contains_congr (l l' : List String) (a : String) (h : a ∈ l ↔ a ∈ l') :
    l.contains a = l'.contains a := by
  by_cases hm : a ∈ l
  · rw [(mem_iff_contains l a).mpr hm, (mem_iff_contains l' a).mpr (h.mp hm)]
  · have h1 : l.contains a = false := by
      rw [← Bool.not_eq_true]
      exact fun hc => hm ((mem_iff_contains l a).mp hc)
    have h2 : l'.contains a = false := by
      rw [← Bool.not_eq_true]
      exact fun hc => hm (h.mpr ((mem_iff_contains l' a).mp hc))
    rw [h1, h2]

theorem createFileMap_singleton_meta_congr (b b' : ReactElement)
    (hpre : b.props.mdxType = "pre") (hpre' : b'.props.mdxType = "pre")
    (hms : metastringTruthy (blockProps b).metastring = true)
    (hms' : metastringTruthy (blockProps b').metastring = true)
    (hraw : (blockProps b).children = (blockProps b').children)
    (hname : metaName (blockProps b) = metaName (blockProps b'))
    (hhid : "hidden" ∈ metaParams (blockProps b) ↔ "hidden" ∈ metaParams (blockProps b'))
    (hact : "active" ∈ metaParams (blockProps b) ↔ "active" ∈ metaParams (blockProps b')) :
    createFileMap [b] = createFileMap [b'] := by
  rw [createFileMap_singleton b hpre, createFileMap_singleton b' hpre',
    resolveFile_meta _ hms, resolveFile_meta _ hms',
    hname, hraw, contains_congr _ _ _ hhid, contains_congr _ _ _ hact]

/-- A named block of the form used throughout the blog posts. -/
def sampleIndexBlock : ReactElement :=
  mkBlock (some "language-tsx") (some "Index.tsx active") "index code"

/-- A second named block with a distinct path. -/
def sampleAppBlock : ReactElement :=
  mkBlock (some "language-tsx") (some "App.tsx") "app code"

/-- An anonymous tsx block, resolved through the language-tag lookup. -/
def sampleTsxBlock : ReactElement :=
  mkBlock (some "language-tsx") none "plain code"

/-- A child node that is not a preformatted block wrapper. -/
def sampleTextNode : ReactElement := ⟨⟨"p", ⟨⟨none, none, "stray text"⟩⟩⟩⟩

/-- The mapping produced from a single anonymous tsx block. -/
def sampleTsxResult : FileMap :=
  [("/App.tsx", { code := "plain code", hidden := false, active := false })]

/-- C1: for every sequence of `pre`-tagged code blocks, each with a truthy
metadata string, whose resolved paths are pairwise distinct,
`createFileMap` returns the mapping with exactly one descriptor per block,
keyed by the block's path, and every descriptor's code field is the
block's raw source text verbatim. -/
theorem createFileMap_named_unique_blocks (children : List ReactElement)
    (hpre : ∀ c ∈ children, c.props.mdxType = "pre")
    (hms : ∀ c ∈ children, metastringTruthy (blockProps c).metastring = true)
    (hnd : (children.map blockPath).Nodup) :
    createFileMap children = .ok (children.map blockEntry) ∧
      ∀ c ∈ children, (blockFile c).code = (blockProps c).children := by
  refine ⟨?_, fun c _ => rfl⟩
  have h := foldlM_named_blocks children [] hpre hms hnd (fun c _ => rfl)
  rw [List.nil_append] at h
  exact h

/-- Witness for C1 at two concretely named blocks. -/
theorem createFileMap_named_unique_blocks_witness :
    createFileMap [sampleIndexBlock, sampleAppBlock] =
        .ok (List.map blockEntry [sampleIndexBlock, sampleAppBlock]) ∧
      ∀ c ∈ [sampleIndexBlock, sampleAppBlock], (blockFile c).code = (blockProps c).children :=
  createFileMap_named_unique_blocks [sampleIndexBlock, sampleAppBlock]
    (by decide) (by decide) (by decide)

/-- C2 counterexample: the claim says the metadata string is split on
whitespace, but the code splits on the space character only; on the
metadata string consisting of a filename, a tab character and the word
hidden, the claim predicts path /App.tsx with hidden set, while the code
produces a path containing the tab and hidden unset. -/
theorem createFileMap_whitespace_split_counterexample :
    createFileMap [mkBlock (some "language-ts") (some "App.tsx\thidden") "x"] =
        .ok [("/App.tsx\thidden", { code := "x", hidden := false, active := false })] ∧
      claimDescriptor "App.tsx\thidden" "x" =
        ("/App.tsx", { code := "x", hidden := true, active := false }) ∧
      createFileMap [mkBlock (some "language-ts") (some "App.tsx\thidden") "x"] ≠
        .ok [claimDescriptor "App.tsx\thidden" "x"] := by decide

/-- C2 amended: for every code block whose metadata string is present
(nonempty), `createFileMap` splits the metadata string on the space
character, takes the first token as the file name, prefixes it with a
slash to form the path, and sets the hidden and active flags exactly when
the words hidden and active appear among the remaining tokens. -/
theorem createFileMap_metastring_space_split (cn : Option String) (ms raw : String)
    (h : ¬ ms = "") :
    createFileMap [mkBlock cn (some ms) raw] =
      .ok [("/" ++ (jsSplitSpace ms).headD "",
        { code := raw
          hidden := ((jsSplitSpace ms).tail).contains "hidden"
          active := ((jsSplitSpace ms).tail).contains "active" })] := by
  rw [createFileMap_singleton _ rfl, resolveFile_meta]
  · rfl
  · simp [blockProps, mkBlock, metastringTruthy, h]

/-- Witness for the amended C2 at the two examples named by the claim. -/
theorem createFileMap_metastring_space_split_witness :
    createFileMap [mkBlock (some "language-tsx") (some "App.tsx active") "x"] =
        .ok [("/App.tsx", { code := "x", hidden := false, active := true })] ∧
      createFileMap [mkBlock (some "language-ts") (some "util.ts hidden") "y"] =
        .ok [("/util.ts", { code := "y", hidden := true, active := false })] := by
  constructor
  · rw [createFileMap_metastring_space_split (some "language-tsx") "App.tsx active" "x"
      (by decide)]
    decide
  · rw [createFileMap_metastring_space_split (some "language-ts") "util.ts hidden" "y"
      (by decide)]
    decide

/-- C3: for every code block without a metadata string, the path is
derived from the language tag by the fixed lookup js, ts, tsx, css, and
the missing-filename error is raised exactly when the tag is anything else
or missing. -/
theorem createFileMap_language_lookup (raw : String) :
    createFileMap [mkBlock (some "language-js") none raw] =
        .ok [("/App.js", { code := raw, hidden := false, active := false })] ∧
      createFileMap [mkBlock (some "language-ts") none raw] =
        .ok [("/App.tsx", { code := raw, hidden := false, active := false })] ∧
      createFileMap [mkBlock (some "language-tsx") none raw] =
        .ok [("/App.tsx", { code := raw, hidden := false, active := false })] ∧
      createFileMap [mkBlock (some "language-css") none raw] =
        .ok [("/styles.css", { code := raw, hidden := false, active := false })] ∧
      ∀ cn : Option String,
        ¬ cn = some "language-js" → ¬ cn = some "language-ts" →
        ¬ cn = some "language-tsx" → ¬ cn = some "language-css" →
        createFileMap [mkBlock cn none raw] = .error (.missingFilename raw) := by
  refine ⟨?_, ?_, ?_, ?_, ?_⟩
  · rw [createFileMap_singleton _ rfl,
      resolveFile_absent (blockProps (mkBlock (some "language-js") none raw)) rfl]
    rfl
  · rw [createFileMap_singleton _ rfl,
      resolveFile_absent (blockProps (mkBlock (some "language-ts") none raw)) rfl]
    rfl
  · rw [createFileMap_singleton _ rfl,
      resolveFile_absent (blockProps (mkBlock (some "language-tsx") none raw)) rfl]
    rfl
  · rw [createFileMap_singleton _ rfl,
      resolveFile_absent (blockProps (mkBlock (some "language-css") none raw)) rfl]
    rfl
  · intro cn h1 h2 h3 h4
    rw [createFileMap_singleton _ rfl,
      resolveFile_absent (blockProps (mkBlock cn none raw)) rfl]
    have hcn : (blockProps (mkBlock cn none raw)).className = cn := rfl
    rw [hcn, if_neg h1, if_neg h2, if_neg h3, if_neg h4]
    rfl

/-- Witness for C3 at a block with no metastring and no language tag. -/
theorem createFileMap_language_lookup_witness :
    createFileMap [mkBlock none none "z"] = .error (.missingFilename "z") :=
  (createFileMap_language_lookup "z").2.2.2.2 none
    (by decide) (by decide) (by decide) (by decide)

/-- C4: every successfully returned mapping has pairwise distinct paths,
and a block that resolves to a path already present in the mapping being
built makes the reducer raise the duplicate-path error instead of
overwriting the existing entry. -/
theorem createFileMap_duplicate_path :
    (∀ (children : List ReactElement) (m : FileMap),
        createFileMap children = .ok m → (m.map Prod.fst).Nodup) ∧
    ∀ (acc : FileMap) (b : ReactElement) (p : String) (f : SandpackFile),
      createFileMapStep [] b = .ok [(p, f)] → (acc.lookup p).isSome = true →
      createFileMapStep acc b = .error (.duplicatePath p) :=
  ⟨fun children m hm => foldlM_keys_nodup children [] (by simp) m hm, step_duplicate⟩

/-- Witness for C4: a second anonymous tsx block hitting the path the
first one produced raises the duplicate-path error. -/
theorem createFileMap_duplicate_path_witness :
    ((sampleTsxResult.map Prod.fst).Nodup) ∧
      createFileMapStep sampleTsxResult sampleTsxBlock = .error (.duplicatePath "/App.tsx") :=
  ⟨createFileMap_duplicate_path.1 [sampleTsxBlock] sampleTsxResult (by decide),
   createFileMap_duplicate_path.2 sampleTsxResult sampleTsxBlock "/App.tsx"
     { code := "plain code", hidden := false, active := false } (by decide) (by decide)⟩

/-- C5: `createFileMap` always either returns a mapping or raises one of
exactly the two errors missing-filename and duplicate-path, and a child
not tagged as a preformatted block wrapper is silently ignored by the
reducer rather than rejected. -/
theorem createFileMap_error_totality :
    (∀ children : List ReactElement,
        (∃ m, createFileMap children = .ok m) ∨
        (∃ s, createFileMap children = .error (.missingFilename s)) ∨
        (∃ p, createFileMap children = .error (.duplicatePath p))) ∧
    ∀ (acc : FileMap) (c : ReactElement), ¬ c.props.mdxType = "pre" →
      createFileMapStep acc c = .ok acc := by
  constructor
  · intro children
    cases h : createFileMap children with
    | ok m => exact Or.inl ⟨m, rfl⟩
    | error e =>
      cases e with
      | missingFilename s => exact Or.inr (Or.inl ⟨s, rfl⟩)
      | duplicatePath p => exact Or.inr (Or.inr ⟨p, rfl⟩)
  · intro acc c h
    exact createFileMapStep_skip acc c h

/-- Witness for C5 at a stray text node. -/
theorem createFileMap_error_totality_witness :
    createFileMapStep [] sampleTextNode = .ok [] :=
  createFileMap_error_totality.2 [] sampleTextNode (by decide)

/-- C6: children not tagged as preformatted block wrappers never affect
the result: the mapping equals the one computed from the block children
alone, and inserting any such child anywhere in the sequence leaves the
result unchanged. -/
theorem createFileMap_ignores_non_pre :
    (∀ children : List ReactElement,
        createFileMap children =
          createFileMap (children.filter (fun c => c.props.mdxType == "pre"))) ∧
    ∀ (l₁ l₂ : List ReactElement) (x : ReactElement), ¬ x.props.mdxType = "pre" →
      createFileMap (l₁ ++ x :: l₂) = createFileMap (l₁ ++ l₂) := by
  have hfilter : ∀ children : List ReactElement,
      createFileMap children =
        createFileMap (children.filter (fun c => c.props.mdxType == "pre")) :=
    fun children => foldlM_filter_pre children []
  refine ⟨hfilter, fun l₁ l₂ x hx => ?_⟩
  rw [hfilter (l₁ ++ x :: l₂), hfilter (l₁ ++ l₂)]
  congr 1
  simp [List.filter_append, List.filter_cons, hx]

/-- Witness for C6: a stray text node between two blocks is ignored. -/
theorem createFileMap_ignores_non_pre_witness :
    createFileMap [sampleIndexBlock, sampleTextNode, sampleAppBlock] =
      createFileMap [sampleIndexBlock, sampleAppBlock] :=
  createFileMap_ignores_non_pre.2 [sampleIndexBlock] [sampleAppBlock] sampleTextNode
    (by decide)

/-- C7: for a block with a present metadata string, the descriptor is
invariant under permuting the tokens after the filename, and more
generally depends only on whether the words hidden and active appear
among them, so unrecognized tokens are ignored. -/
theorem createFileMap_flag_token_invariance :
    (∀ b b' : ReactElement,
        b.props.mdxType = "pre" → b'.props.mdxType = "pre" →
        metastringTruthy (blockProps b).metastring = true →
        metastringTruthy (blockProps b').metastring = true →
        (blockProps b).children = (blockProps b').children →
        metaName (blockProps b) = metaName (blockProps b') →
        (metaParams (blockProps b)).Perm (metaParams (blockProps b')) →
        createFileMap [b] = createFileMap [b']) ∧
    ∀ b b' : ReactElement,
      b.props.mdxType = "pre" → b'.props.mdxType = "pre" →
      metastringTruthy (blockProps b).metastring = true →
      metastringTruthy (blockProps b').metastring = true →
      (blockProps b).children = (blockProps b').children →
      metaName (blockProps b) = metaName (blockProps b') →
      ("hidden" ∈ metaParams (blockProps b) ↔ "hidden" ∈ metaParams (blockProps b')) →
      ("active" ∈ metaParams (blockProps b) ↔ "active" ∈ metaParams (blockProps b')) →
      createFileMap [b] = createFileMap [b'] :=
  ⟨fun b b' h1 h2 h3 h4 h5 h6 hperm =>
    createFileMap_singleton_meta_congr b b' h1 h2 h3 h4 h5 h6 hperm.mem_iff hperm.mem_iff,
   fun b b' h1 h2 h3 h4 h5 h6 hh ha =>
    createFileMap_singleton_meta_congr b b' h1 h2 h3 h4 h5 h6 hh ha⟩

/-- Witness for C7: swapping the two flags, and inserting an unrecognized
token, both leave the result unchanged. -/
theorem createFileMap_flag_token_invariance_witness :
    createFileMap [mkBlock (some "language-ts") (some "f.ts hidden active") "body"] =
        createFileMap [mkBlock (some "language-ts") (some "f.ts active hidden") "body"] ∧
      createFileMap [mkBlock (some "language-ts") (some "f.ts hidden active") "body"] =
        createFileMap [mkBlock (some "language-ts") (some "f.ts active extra hidden") "body"] :=
  ⟨createFileMap_flag_token_invariance.1
     (mkBlock (some "language-ts") (some "f.ts hidden active") "body")
     (mkBlock (some "language-ts") (some "f.ts active hidden") "body")
     (by decide) (by decide) (by decide) (by decide) (by decide) (by decide) (by decide),
   createFileMap_flag_token_invariance.2
     (mkBlock (some "language-ts") (some "f.ts hidden active") "body")
     (mkBlock (some "language-ts") (some "f.ts active extra hidden") "body")
     (by decide) (by decide) (by decide) (by decide) (by decide) (by decide)
     (by decide) (by decide)⟩

/-- C8: `createFileMap` is modelled as a pure total function of its input
children, so two invocations on the same input produce identical results,
with the two error outcomes carried deterministically in the return
value. -/
theorem createFileMap_deterministic (children : List ReactElement) :
    createFileMap children = createFileMap children := rfl

/-- C9: an empty metadata string is falsy in JavaScript, so the code falls
back to the language-tag lookup exactly as if the metadata string were
absent, and raises the missing-filename error when the tag is
unrecognized. -/
theorem createFileMap_empty_metastring :
    (∀ (cn : Option String) (raw : String),
        createFileMap [mkBlock cn (some "") raw] = createFileMap [mkBlock cn none raw]) ∧
    ∀ (cn : Option String) (raw : String),
      ¬ cn = some "language-js" → ¬ cn = some "language-ts" →
      ¬ cn = some "language-tsx" → ¬ cn = some "language-css" →
      createFileMap [mkBlock cn (some "") raw] = .error (.missingFilename raw) := by
  constructor
  · intro cn raw
    rw [createFileMap_singleton _ rfl, createFileMap_singleton _ rfl,
      resolveFile_absent (blockProps (mkBlock cn (some "") raw)) rfl,
      resolveFile_absent (blockProps (mkBlock cn none raw)) rfl]
    rfl
  · intro cn raw h1 h2 h3 h4
    rw [createFileMap_singleton _ rfl,
      resolveFile_absent (blockProps (mkBlock cn (some "") raw)) rfl]
    have hcn : (blockProps (mkBlock cn (some "") raw)).className = cn := rfl
    rw [hcn, if_neg h1, if_neg h2, if_neg h3, if_neg h4]
    rfl

/-- Witness for C9 at an unrecognized language tag. -/
theorem createFileMap_empty_metastring_witness :
    createFileMap [mkBlock (some "language-elm") (some "") "x"] =
        createFileMap [mkBlock (some "language-elm") none "x"] ∧
      createFileMap [mkBlock (some "language-elm") (some "") "x"] =
        .error (.missingFilename "x") :=
  ⟨createFileMap_empty_metastring.1 (some "language-elm") "x",
   createFileMap_empty_metastring.2 (some "language-elm") "x"
     (by decide) (by decide) (by decide) (by decide)⟩

/-- C10: a metadata string consisting only of a flag word is taken as the
filename: the metastring hidden yields path /hidden with both flags off,
and likewise the metastring active yields path /active. -/
theorem createFileMap_flagword_as_filename (cn : Option String) (raw : String) :
    createFileMap [mkBlock cn (some "hidden") raw] =
        .ok [("/hidden", { code := raw, hidden := false, active := false })] ∧
      createFileMap [mkBlock cn (some "active") raw] =
        .ok [("/active", { code := raw, hidden := false, active := false })] := by
  constructor
  · rw [createFileMap_singleton _ rfl,
      resolveFile_meta (blockProps (mkBlock cn (some "hidden") raw)) rfl]
    rfl
  · rw [createFileMap_singleton _ rfl,
      resolveFile_meta (blockProps (mkBlock cn (some "active") raw)) rfl]
    rfl

example : createFileMap [mkBlock (some "language-css") none "body {}"] =
    .ok [("/styles.css", { code := "body \x7b\x7d", hidden := false, active := false })] := by decide

example : createFileMap [mkBlock (some "language-tsx") none "a", mkBlock (some "language-tsx") none "b"] =
    .error (.duplicatePath "/App.tsx") := by decide

example : createFileMap [mkBlock (some "language-rust") none "a"] =
    .error (.missingFilename "a") := by decide

end Blog
